import Mathlib

/-!
Verification of the `polygon` repository's `Outline` core: circular vertex
indexing, neighbor derivation, convexity classification and angle queries.

The Rust code operates on `glam::Vec2` with `f32` coordinates; here the
coordinates are idealized as real numbers, and `f32::atan2` is modelled by
`Complex.arg`, which shares its range `(-π, π]` and quadrant convention.
Signed machine indices (`isize`) are modelled by `ℤ`, and Rust's
`rem_euclid` by `Int.emod`, which also returns a non-negative remainder for
a positive modulus.  Slice indexing, which panics out of bounds, and
`rem_euclid`, which panics on a zero divisor, are modelled by the
`Option`-valued `Outline.index?`; the total `Outline.index` agrees with it
whenever the outline is non-empty.
-/

namespace PolygonSpec

/-- Model of `glam::Vec2`: a 2D vector, coordinates idealized as reals. -/
structure Vec2 where
  x : ℝ
  y : ℝ

/-- Model of `glam::Vec3`, reached through `Vec2::extend`. -/
structure Vec3 where
  x : ℝ
  y : ℝ
  z : ℝ

instance : Inhabited Vec2 := ⟨⟨0, 0⟩⟩

/-- Componentwise subtraction of 2D vectors (`impl Sub for Vec2`). -/
def Vec2.sub (a b : Vec2) : Vec2 := ⟨a.x - b.x, a.y - b.y⟩

instance : Sub Vec2 := ⟨Vec2.sub⟩

/-- `Vec2::dot`. -/
def Vec2.dot (a b : Vec2) : ℝ := a.x * b.x + a.y * b.y

/-- `Vec2::extend`: append a z coordinate. -/
def Vec2.extend (v : Vec2) (z : ℝ) : Vec3 := ⟨v.x, v.y, z⟩

/-- `Vec3::cross`: the 3D cross product. -/
def Vec3.cross (a b : Vec3) : Vec3 :=
  ⟨a.y * b.z - a.z * b.y, a.z * b.x - a.x * b.z, a.x * b.y - a.y * b.x⟩

/-- `Vec2::length`: `sqrt (v · v)`. -/
noncomputable def Vec2.length (v : Vec2) : ℝ := Real.sqrt (v.dot v)

/-- `Vec2::length_reciprocal`: `1 / length`. -/
noncomputable def Vec2.length_reciprocal (v : Vec2) : ℝ := (v.length)⁻¹

/-- `atan2 y x`, modelled by the argument of the complex number `x + y i`:
range `(-π, π]`, standard quadrant convention. -/
noncomputable def atan2 (y x : ℝ) : ℝ := Complex.arg ⟨x, y⟩

/-- `Outline` (src/outline.rs): a closed circuit of vertices. -/
structure Outline where
  vertices : List Vec2

/-- The length `n` of the stored vertex list, as an integer (Rust's
`self.vertices.len() as isize`). -/
def Outline.len (o : Outline) : ℤ := o.vertices.length

/-- `Index<isize> for Outline`:
`&self.vertices[i.rem_euclid(self.vertices.len() as isize) as usize]`,
made total by returning the `Inhabited` default on the empty outline
(where the Rust code panics; see `Outline.index?`). -/
noncomputable def Outline.index (o : Outline) (i : ℤ) : Vec2 :=
  o.vertices.getD (i % o.len).toNat default

/-- Partiality-aware model of `Index<isize> for Outline`: `rem_euclid`
panics when the divisor `len` is zero (`none`), and slice indexing
panics when the computed position is out of bounds (`List.get?`). -/
noncomputable def Outline.index? (o : Outline) (i : ℤ) : Option Vec2 :=
  if o.len = 0 then none
  else o.vertices.get? (i % o.len).toNat

/-- `Outline::prev_that_next`: the tuple of the `i-1`-th, `i`-th and
`i+1`-th vertices. -/
noncomputable def Outline.prev_that_next (o : Outline) (i : ℤ) :
    Vec2 × Vec2 × Vec2 :=
  (o.index (i - 1), o.index i, o.index (i + 1))

/-- `Outline::to_neighbors`: vectors from the `i`-th vertex to its
previous and to its next vertex. -/
noncomputable def Outline.to_neighbors (o : Outline) (i : ℤ) : Vec2 × Vec2 :=
  let (prev, that, next) := o.prev_that_next i
  (prev - that, next - that)

/-- `Outline::inner_angle_cos_sin`: normalized cosine and sine of the
counter-clockwise angle between the vector to the next vertex and the
vector to the previous one. -/
noncomputable def Outline.inner_angle_cos_sin (o : Outline) (i : ℤ) : ℝ × ℝ :=
  let (to_prev, to_next) := o.to_neighbors i
  let prev_inv_len := to_prev.length_reciprocal
  let next_inv_len := to_next.length_reciprocal
  let norm_coef := prev_inv_len * next_inv_len
  let cross := ((to_next.extend 0).cross (to_prev.extend 0)).z
  (norm_coef * to_prev.dot to_next, norm_coef * cross)

/-- `Outline::convex`: the sine component is positive. -/
noncomputable def Outline.convex (o : Outline) (i : ℤ) : Prop :=
  0 < (o.inner_angle_cos_sin i).2

/-- `Outline::concave`: not convex. -/
noncomputable def Outline.concave (o : Outline) (i : ℤ) : Prop :=
  ¬ o.convex i

/-- `Outline::inner_angle`: `sin.atan2(cos)`. -/
noncomputable def Outline.inner_angle (o : Outline) (i : ℤ) : ℝ :=
  let (c, s) := o.inner_angle_cos_sin i
  atan2 s c

/-- `Outline::outer_angle`: `2π - inner_angle`. -/
noncomputable def Outline.outer_angle (o : Outline) (i : ℤ) : ℝ :=
  2 * Real.pi - o.inner_angle i

/-! Partiality-aware variants of the queries: every angle/convexity query
reaches the vertices only through `Index<isize>`, so the divisor-zero
panic on an empty outline propagates out of each of them.  Each variant
threads `Outline.index?` through the same computation as its total
counterpart, `none` marking the arithmetic fault. -/

/-- `Outline::prev_that_next`, with the indexing fault propagated. -/
noncomputable def Outline.prev_that_next? (o : Outline) (i : ℤ) :
    Option (Vec2 × Vec2 × Vec2) := do
  let prev ← o.index? (i - 1)
  let that ← o.index? i
  let next ← o.index? (i + 1)
  pure (prev, that, next)

/-- `Outline::to_neighbors`, with the indexing fault propagated. -/
noncomputable def Outline.to_neighbors? (o : Outline) (i : ℤ) :
    Option (Vec2 × Vec2) := do
  let (prev, that, next) ← o.prev_that_next? i
  pure (prev - that, next - that)

/-- `Outline::inner_angle_cos_sin`, with the indexing fault propagated. -/
noncomputable def Outline.inner_angle_cos_sin? (o : Outline) (i : ℤ) :
    Option (ℝ × ℝ) := do
  let (to_prev, to_next) ← o.to_neighbors? i
  let prev_inv_len := to_prev.length_reciprocal
  let next_inv_len := to_next.length_reciprocal
  let norm_coef := prev_inv_len * next_inv_len
  let cross := ((to_next.extend 0).cross (to_prev.extend 0)).z
  pure (norm_coef * to_prev.dot to_next, norm_coef * cross)

/-- `Outline::convex`, with the indexing fault propagated. -/
noncomputable def Outline.convex? (o : Outline) (i : ℤ) : Option Prop :=
  (o.inner_angle_cos_sin? i).map (fun cs => 0 < cs.2)

/-- `Outline::concave`, with the indexing fault propagated. -/
noncomputable def Outline.concave? (o : Outline) (i : ℤ) : Option Prop :=
  (o.convex? i).map Not

/-- `Outline::inner_angle`, with the indexing fault propagated. -/
noncomputable def Outline.inner_angle? (o : Outline) (i : ℤ) : Option ℝ :=
  (o.inner_angle_cos_sin? i).map (fun cs => atan2 cs.2 cs.1)

/-- `Outline::outer_angle`, with the indexing fault propagated. -/
noncomputable def Outline.outer_angle? (o : Outline) (i : ℤ) : Option ℝ :=
  (o.inner_angle? i).map (fun a => 2 * Real.pi - a)

/-- `VerticesOrder` (src/lib.rs). -/
inductive VerticesOrder where
  | CounterClockwise
  | Clockwise

/-- The lib.rs `Outline`, whose constructor takes a winding-order tag. -/
structure OutlineLib where
  vertices : List Vec2

/-- lib.rs `Outline::new`: store the sequence as given for
`CounterClockwise`, reversed for `Clockwise` (the double-ended iterator is
modelled by a list, `rev()` by `List.reverse`). -/
def OutlineLib.new (vertices : List Vec2) (order : VerticesOrder) : OutlineLib :=
  ⟨match order with
    | VerticesOrder.CounterClockwise => vertices
    | VerticesOrder.Clockwise => vertices.reverse⟩

/-! ### Helper lemmas and concrete outlines -/

theorem Outline.len_nonneg (o : Outline) : 0 ≤ o.len := Int.ofNat_nonneg _

theorem Outline.emod_len_lt (o : Outline) (i : ℤ) (h : 0 < o.len) :
    (i % o.len).toNat < o.vertices.length := by
  have h0 : o.len ≠ 0 := ne_of_gt h
  have h1 : 0 ≤ i % o.len := Int.emod_nonneg i h0
  have h2 : i % o.len < o.len := Int.emod_lt_of_pos i h
  have h3 : o.len = (o.vertices.length : ℤ) := rfl
  omega

theorem Outline.index_eq_get (o : Outline) (i : ℤ) (h : 0 < o.len) :
    o.index i = o.vertices.get ⟨(i % o.len).toNat, o.emod_len_lt i h⟩ := by
  unfold Outline.index
  simp [List.getD, List.getElem?_eq_getElem (o.emod_len_lt i h)]

theorem Outline.index_congr (o : Outline) {i j : ℤ}
    (h : i % o.len = j % o.len) : o.index i = o.index j := by
  unfold Outline.index
  rw [h]

theorem Outline.index_opt_none (o : Outline) (i : ℤ) (h : o.len = 0) :
    o.index? i = none := by
  simp [Outline.index?, h]

theorem Outline.index_opt_eq_some (o : Outline) (i : ℤ) (h : 0 < o.len) :
    o.index? i = some (o.index i) := by
  rw [Outline.index?, if_neg (ne_of_gt h), o.index_eq_get i h]
  simp [List.get?_eq_getElem?, List.getElem?_eq_getElem (o.emod_len_lt i h)]

/-- The CCW axis-aligned right triangle from the spec's example scenarios:
`a = (0,0)`, `b = (1,0)`, `c = (1,1)`. -/
def ccwTriangle : Outline := ⟨[⟨0, 0⟩, ⟨1, 0⟩, ⟨1, 1⟩]⟩

/-- The reflex variant: `b` moved to `(0,1)`, making vertex 1 concave. -/
def reflexTriangle : Outline := ⟨[⟨0, 0⟩, ⟨0, 1⟩, ⟨1, 1⟩]⟩

/-- An outline with a repeated vertex, degenerate at index 1. -/
def degenerateOutline : Outline := ⟨[⟨0, 0⟩, ⟨0, 0⟩, ⟨1, 0⟩]⟩

theorem Vec2.sub_def (a b : Vec2) : a - b = ⟨a.x - b.x, a.y - b.y⟩ := rfl

theorem Vec2.length_reciprocal_def (v : Vec2) :
    v.length_reciprocal = (Real.sqrt (v.x * v.x + v.y * v.y))⁻¹ := rfl

theorem Outline.to_neighbors_def (o : Outline) (i : ℤ) :
    o.to_neighbors i
      = (o.index (i - 1) - o.index i, o.index (i + 1) - o.index i) := rfl

theorem Outline.cos_sin_formula (o : Outline) (i : ℤ) :
    o.inner_angle_cos_sin i
      = (((o.to_neighbors i).1.length_reciprocal
            * (o.to_neighbors i).2.length_reciprocal)
           * ((o.to_neighbors i).1.dot (o.to_neighbors i).2),
         ((o.to_neighbors i).1.length_reciprocal
            * (o.to_neighbors i).2.length_reciprocal)
           * ((o.to_neighbors i).2.x * (o.to_neighbors i).1.y
              - (o.to_neighbors i).2.y * (o.to_neighbors i).1.x)) := rfl

theorem Outline.inner_angle_def (o : Outline) (i : ℤ) :
    o.inner_angle i
      = atan2 (o.inner_angle_cos_sin i).2 (o.inner_angle_cos_sin i).1 := rfl

theorem ccw_index_zero : ccwTriangle.index 0 = ⟨0, 0⟩ := rfl

theorem ccw_index_one : ccwTriangle.index 1 = ⟨1, 0⟩ := rfl

theorem ccw_index_two : ccwTriangle.index 2 = ⟨1, 1⟩ := rfl

theorem ccw_index_neg_one : ccwTriangle.index (-1) = ⟨1, 1⟩ := rfl

theorem ccw_cos_sin_one : ccwTriangle.inner_angle_cos_sin 1 = (0, 1) := by
  rw [Outline.cos_sin_formula, Outline.to_neighbors_def]
  norm_num [ccw_index_zero, ccw_index_one, ccw_index_two, Vec2.sub_def,
    Vec2.length_reciprocal_def, Vec2.dot, Real.sqrt_one]

theorem ccw_cos_sin_zero :
    ccwTriangle.inner_angle_cos_sin 0 = ((Real.sqrt 2)⁻¹, (Real.sqrt 2)⁻¹) := by
  rw [Outline.cos_sin_formula, Outline.to_neighbors_def]
  norm_num [ccw_index_zero, ccw_index_one, ccw_index_neg_one, Vec2.sub_def,
    Vec2.length_reciprocal_def, Vec2.dot, Real.sqrt_one]

theorem reflex_cos_sin_one : reflexTriangle.inner_angle_cos_sin 1 = (0, -1) := by
  rw [Outline.cos_sin_formula, Outline.to_neighbors_def]
  norm_num [show reflexTriangle.index 0 = ⟨0, 0⟩ from rfl,
    show reflexTriangle.index 1 = ⟨0, 1⟩ from rfl,
    show reflexTriangle.index 2 = ⟨1, 1⟩ from rfl, Vec2.sub_def,
    Vec2.length_reciprocal_def, Vec2.dot, Real.sqrt_one]

theorem degenerate_to_prev : (degenerateOutline.to_neighbors 1).1 = ⟨0, 0⟩ := by
  rw [Outline.to_neighbors_def]
  norm_num [show degenerateOutline.index 0 = ⟨0, 0⟩ from rfl,
    show degenerateOutline.index 1 = ⟨0, 0⟩ from rfl, Vec2.sub_def]

theorem inv_sqrt_two_eq : (Real.sqrt 2)⁻¹ = Real.sqrt 2 / 2 := by
  have h2 : Real.sqrt 2 ≠ 0 := by positivity
  rw [inv_eq_one_div, div_eq_div_iff h2 (by norm_num : (2 : ℝ) ≠ 0),
    Real.mul_self_sqrt (by norm_num : (0 : ℝ) ≤ 2)]
  norm_num

/-! ### C1: circular indexing -/

/-- C1: for a non-empty outline of length `n`, indexing returns the stored
vertex at position `i mod n` with Euclidean modulo (which agrees with floor
modulo and is non-negative, hence in bounds); consequently
`at i = at (i + n) = at (i - n)`, `at (-1) = at (n - 1)` and
`at n = at 0`. -/
theorem circular_indexing_euclid_periodic (o : Outline) (i : ℤ) (h : 0 < o.len) :
    (0 ≤ i % o.len ∧ i % o.len = Int.fmod i o.len
      ∧ (i % o.len).toNat < o.vertices.length)
    ∧ o.index i = o.vertices.getD (i % o.len).toNat default
    ∧ o.index i = o.index (i + o.len)
    ∧ o.index i = o.index (i - o.len)
    ∧ o.index (-1) = o.index (o.len - 1)
    ∧ o.index o.len = o.index 0 := by
  have h0 : o.len ≠ 0 := ne_of_gt h
  refine ⟨⟨Int.emod_nonneg i h0, (Int.fmod_eq_emod i (le_of_lt h)).symm,
      o.emod_len_lt i h⟩, rfl, ?_, ?_, ?_, ?_⟩
  · exact o.index_congr (by simpa using (Int.add_mul_emod_self_left i o.len 1).symm)
  · exact o.index_congr
      (by simpa [sub_eq_add_neg] using (Int.add_mul_emod_self_left i o.len (-1)).symm)
  · exact o.index_congr
      (by simpa [sub_eq_add_neg, add_comm] using (Int.add_mul_emod_self_left (-1) o.len 1).symm)
  · exact o.index_congr (by simp [Int.emod_self, Int.zero_emod])

/-- C1 witness: the periodicity facts instantiated on the concrete CCW
triangle at index `-7`. -/
theorem circular_indexing_euclid_periodic_witness :
    0 < ccwTriangle.len
    ∧ ((0 ≤ (-7 : ℤ) % ccwTriangle.len
        ∧ (-7 : ℤ) % ccwTriangle.len = Int.fmod (-7) ccwTriangle.len
        ∧ ((-7 : ℤ) % ccwTriangle.len).toNat < ccwTriangle.vertices.length)
      ∧ ccwTriangle.index (-7)
          = ccwTriangle.vertices.getD ((-7 : ℤ) % ccwTriangle.len).toNat default
      ∧ ccwTriangle.index (-7) = ccwTriangle.index (-7 + ccwTriangle.len)
      ∧ ccwTriangle.index (-7) = ccwTriangle.index (-7 - ccwTriangle.len)
      ∧ ccwTriangle.index (-1) = ccwTriangle.index (ccwTriangle.len - 1)
      ∧ ccwTriangle.index ccwTriangle.len = ccwTriangle.index 0) :=
  ⟨by decide, circular_indexing_euclid_periodic ccwTriangle (-7) (by decide)⟩

/-! ### C4: empty outline faults, non-empty outlines never fault -/

/-- C4: on a zero-length outline, indexing and every angle/convexity
query fault with the modulo-by-zero panic (modelled as `none`); on a
non-empty outline no integer index causes a failure: indexing and every
query succeed and return their total values. -/
theorem index_fault_iff_empty (o : Outline) (i : ℤ) :
    (o.len = 0 →
      o.index? i = none
      ∧ o.prev_that_next? i = none
      ∧ o.to_neighbors? i = none
      ∧ o.inner_angle_cos_sin? i = none
      ∧ o.convex? i = none
      ∧ o.concave? i = none
      ∧ o.inner_angle? i = none
      ∧ o.outer_angle? i = none)
    ∧ (0 < o.len →
      o.index? i = some (o.index i)
      ∧ o.prev_that_next? i = some (o.prev_that_next i)
      ∧ o.to_neighbors? i = some (o.to_neighbors i)
      ∧ o.inner_angle_cos_sin? i = some (o.inner_angle_cos_sin i)
      ∧ o.convex? i = some (o.convex i)
      ∧ o.concave? i = some (o.concave i)
      ∧ o.inner_angle? i = some (o.inner_angle i)
      ∧ o.outer_angle? i = some (o.outer_angle i)) := by
  constructor
  · intro h
    have hp : o.prev_that_next? i = none := by
      unfold Outline.prev_that_next?
      rw [o.index_opt_none (i - 1) h]
      rfl
    have ht : o.to_neighbors? i = none := by
      unfold Outline.to_neighbors?
      rw [hp]
      rfl
    have hcs : o.inner_angle_cos_sin? i = none := by
      unfold Outline.inner_angle_cos_sin?
      rw [ht]
      rfl
    have hcv : o.convex? i = none := by
      unfold Outline.convex?
      rw [hcs]
      rfl
    have hia : o.inner_angle? i = none := by
      unfold Outline.inner_angle?
      rw [hcs]
      rfl
    refine ⟨o.index_opt_none i h, hp, ht, hcs, hcv, ?_, hia, ?_⟩
    · unfold Outline.concave?
      rw [hcv]
      rfl
    · unfold Outline.outer_angle?
      rw [hia]
      rfl
  · intro h
    have hidx : ∀ j : ℤ, o.index? j = some (o.index j) :=
      fun j => o.index_opt_eq_some j h
    have hp : o.prev_that_next? i = some (o.prev_that_next i) := by
      unfold Outline.prev_that_next?
      rw [hidx (i - 1), hidx i, hidx (i + 1)]
      rfl
    have ht : o.to_neighbors? i = some (o.to_neighbors i) := by
      unfold Outline.to_neighbors?
      rw [hp]
      rfl
    have hcs : o.inner_angle_cos_sin? i = some (o.inner_angle_cos_sin i) := by
      unfold Outline.inner_angle_cos_sin?
      rw [ht]
      rfl
    have hcv : o.convex? i = some (o.convex i) := by
      unfold Outline.convex?
      rw [hcs]
      rfl
    have hia : o.inner_angle? i = some (o.inner_angle i) := by
      unfold Outline.inner_angle?
      rw [hcs]
      rfl
    refine ⟨hidx i, hp, ht, hcs, hcv, ?_, hia, ?_⟩
    · unfold Outline.concave?
      rw [hcv]
      rfl
    · unfold Outline.outer_angle?
      rw [hia]
      rfl

/-- C4 witness: the empty outline faults at index 0 in the indexing and
in every angle/convexity query; the CCW triangle resolves all of them at
index 5. -/
theorem index_fault_iff_empty_witness :
    ((⟨[]⟩ : Outline).len = 0
      ∧ ((⟨[]⟩ : Outline).index? 0 = none
        ∧ (⟨[]⟩ : Outline).prev_that_next? 0 = none
        ∧ (⟨[]⟩ : Outline).to_neighbors? 0 = none
        ∧ (⟨[]⟩ : Outline).inner_angle_cos_sin? 0 = none
        ∧ (⟨[]⟩ : Outline).convex? 0 = none
        ∧ (⟨[]⟩ : Outline).concave? 0 = none
        ∧ (⟨[]⟩ : Outline).inner_angle? 0 = none
        ∧ (⟨[]⟩ : Outline).outer_angle? 0 = none))
    ∧ (0 < ccwTriangle.len
      ∧ (ccwTriangle.index? 5 = some (ccwTriangle.index 5)
        ∧ ccwTriangle.prev_that_next? 5 = some (ccwTriangle.prev_that_next 5)
        ∧ ccwTriangle.to_neighbors? 5 = some (ccwTriangle.to_neighbors 5)
        ∧ ccwTriangle.inner_angle_cos_sin? 5
            = some (ccwTriangle.inner_angle_cos_sin 5)
        ∧ ccwTriangle.convex? 5 = some (ccwTriangle.convex 5)
        ∧ ccwTriangle.concave? 5 = some (ccwTriangle.concave 5)
        ∧ ccwTriangle.inner_angle? 5 = some (ccwTriangle.inner_angle 5)
        ∧ ccwTriangle.outer_angle? 5 = some (ccwTriangle.outer_angle 5))) :=
  ⟨⟨rfl, (index_fault_iff_empty ⟨[]⟩ 0).1 rfl⟩,
   ⟨by decide, (index_fault_iff_empty ccwTriangle 5).2 (by decide)⟩⟩

/-! ### C6: the neighbor triple -/

/-- C6: for any non-empty outline and any integer index, including
negative and wraparound ones, `prev_that_next i` is exactly
`(at (i-1), at i, at (i+1))`. -/
theorem prev_that_next_eq_triple (o : Outline) (i : ℤ) (_h : 0 < o.len) :
    o.prev_that_next i = (o.index (i - 1), o.index i, o.index (i + 1)) := rfl

/-- C6 witness: the triple identity on the CCW triangle at the negative
index `-2`. -/
theorem prev_that_next_eq_triple_witness :
    0 < ccwTriangle.len
    ∧ ccwTriangle.prev_that_next (-2)
        = (ccwTriangle.index (-2 - 1), ccwTriangle.index (-2),
           ccwTriangle.index (-2 + 1)) :=
  ⟨by decide, prev_that_next_eq_triple ccwTriangle (-2) (by decide)⟩

/-! ### C7: the neighbor vectors -/

/-- C7: for any non-empty outline and any integer index, `to_neighbors i`
is the pair `(prev - that, next - that)` over `prev_that_next i`, i.e. the
vectors from vertex `i` toward its predecessor and toward its successor. -/
theorem to_neighbors_eq_diffs (o : Outline) (i : ℤ) (_h : 0 < o.len) :
    o.to_neighbors i
      = ((o.prev_that_next i).1 - (o.prev_that_next i).2.1,
         (o.prev_that_next i).2.2 - (o.prev_that_next i).2.1)
    ∧ o.to_neighbors i
      = (o.index (i - 1) - o.index i, o.index (i + 1) - o.index i) :=
  ⟨rfl, rfl⟩

/-- C7 witness: the neighbor-vector identity on the CCW triangle at
index 1. -/
theorem to_neighbors_eq_diffs_witness :
    0 < ccwTriangle.len
    ∧ (ccwTriangle.to_neighbors 1
        = ((ccwTriangle.prev_that_next 1).1 - (ccwTriangle.prev_that_next 1).2.1,
           (ccwTriangle.prev_that_next 1).2.2 - (ccwTriangle.prev_that_next 1).2.1)
      ∧ ccwTriangle.to_neighbors 1
        = (ccwTriangle.index 0 - ccwTriangle.index 1,
           ccwTriangle.index 2 - ccwTriangle.index 1)) :=
  ⟨by decide, by
    have h := to_neighbors_eq_diffs ccwTriangle 1 (by decide)
    norm_num at h ⊢
    exact h⟩

/-! ### C8: winding-order normalization at construction -/

/-- C8: the order-normalizing constructor stores the sequence as given for
the `CounterClockwise` tag and reversed for the `Clockwise` tag, so
building from `S` with `CounterClockwise` equals building from
`reverse S` with `Clockwise`. -/
theorem new_winding_normalization (S : List Vec2) :
    (OutlineLib.new S VerticesOrder.CounterClockwise).vertices = S
    ∧ (OutlineLib.new S VerticesOrder.Clockwise).vertices = S.reverse
    ∧ OutlineLib.new S VerticesOrder.CounterClockwise
        = OutlineLib.new S.reverse VerticesOrder.Clockwise := by
  refine ⟨rfl, rfl, ?_⟩
  simp [OutlineLib.new]

/-! ### Concrete angle evaluations on the example triangles -/

theorem ccw_inner_angle_one : ccwTriangle.inner_angle 1 = Real.pi / 2 := by
  rw [Outline.inner_angle_def, ccw_cos_sin_one]
  show Complex.arg ⟨0, 1⟩ = _
  rw [show (⟨0, 1⟩ : ℂ) = Complex.I from rfl, Complex.arg_I]

theorem ccw_inner_angle_zero : ccwTriangle.inner_angle 0 = Real.pi / 4 := by
  rw [Outline.inner_angle_def, ccw_cos_sin_zero]
  show Complex.arg ⟨(Real.sqrt 2)⁻¹, (Real.sqrt 2)⁻¹⟩ = _
  have hmk : (⟨(Real.sqrt 2)⁻¹, (Real.sqrt 2)⁻¹⟩ : ℂ)
      = (Real.cos (Real.pi / 4) : ℝ) + (Real.sin (Real.pi / 4) : ℝ) * Complex.I := by
    rw [Real.cos_pi_div_four, Real.sin_pi_div_four]
    simp [Complex.ext_iff, inv_sqrt_two_eq]
  rw [hmk, Complex.ofReal_cos, Complex.ofReal_sin]
  refine Complex.arg_cos_add_sin_mul_I ⟨?_, ?_⟩
  · nlinarith [Real.pi_pos]
  · nlinarith [Real.pi_pos]

theorem reflex_inner_angle_one :
    reflexTriangle.inner_angle 1 = -(Real.pi / 2) := by
  rw [Outline.inner_angle_def, reflex_cos_sin_one]
  show Complex.arg ⟨0, -1⟩ = _
  have hmk : (⟨0, -1⟩ : ℂ) = -Complex.I := by
    simp [Complex.ext_iff]
  rw [hmk, Complex.arg_neg_I]

/-! ### C3: convexity and concavity from the sign of the sine -/

/-- C3: `convex i` holds iff the normalized sine is positive, `concave i`
iff it is non-positive, where the sine is the cross product of the to-next
and to-prev vectors over the product of their lengths; exactly one of the
two classifications holds, and `concave` is the negation of `convex`. -/
theorem convex_concave_sign_exclusive (o : Outline) (i : ℤ) :
    (o.convex i ↔ 0 < (o.inner_angle_cos_sin i).2)
    ∧ (o.concave i ↔ (o.inner_angle_cos_sin i).2 ≤ 0)
    ∧ (o.inner_angle_cos_sin i).2
        = ((o.to_neighbors i).2.x * (o.to_neighbors i).1.y
            - (o.to_neighbors i).2.y * (o.to_neighbors i).1.x)
          / ((o.to_neighbors i).1.length * (o.to_neighbors i).2.length)
    ∧ (o.concave i ↔ ¬ o.convex i)
    ∧ ((o.convex i ∧ ¬ o.concave i) ∨ (¬ o.convex i ∧ o.concave i)) := by
  unfold Outline.concave Outline.convex
  refine ⟨Iff.rfl, not_lt, ?_, Iff.rfl, ?_⟩
  · rw [Outline.cos_sin_formula]
    simp only [Vec2.length_reciprocal, div_eq_mul_inv, mul_inv]
    ring
  · by_cases hs : 0 < (o.inner_angle_cos_sin i).2
    · exact Or.inl ⟨hs, not_not_intro hs⟩
    · exact Or.inr ⟨hs, hs⟩

/-! ### C5: inner and outer angle are complementary around a full turn -/

/-- C5: `outer_angle i` is `2π - inner_angle i`, so the two angles sum to
`2π` exactly. -/
theorem angle_complementarity (o : Outline) (i : ℤ) :
    o.outer_angle i = 2 * Real.pi - o.inner_angle i
    ∧ o.inner_angle i + o.outer_angle i = 2 * Real.pi := by
  refine ⟨rfl, ?_⟩
  unfold Outline.outer_angle
  ring

/-! ### C9: the CCW right-triangle example scenario -/

/-- C9: on the CCW right triangle `a = (0,0)`, `b = (1,0)`, `c = (1,1)`,
vertices 1 and 0 are convex, `inner_angle 1 = π/2`,
`outer_angle 1 = 3π/2` and `inner_angle 0 = π/4`. -/
theorem ccw_triangle_scenario :
    ccwTriangle.convex 1 ∧ ccwTriangle.convex 0
    ∧ ccwTriangle.inner_angle 1 = Real.pi / 2
    ∧ ccwTriangle.outer_angle 1 = 3 * Real.pi / 2
    ∧ ccwTriangle.inner_angle 0 = Real.pi / 4 := by
  refine ⟨?_, ?_, ccw_inner_angle_one, ?_, ccw_inner_angle_zero⟩
  · unfold Outline.convex
    rw [ccw_cos_sin_one]
    norm_num
  · unfold Outline.convex
    rw [ccw_cos_sin_zero]
    have h2 : (0 : ℝ) < (Real.sqrt 2)⁻¹ := by positivity
    simpa using h2
  · unfold Outline.outer_angle
    rw [ccw_inner_angle_one]
    ring

/-! ### C2: `inner_angle` applies no `2π` correction -/

/-- C2 counterexample: on the triangle with `b` moved to `(0,1)`, vertex 1
is concave but `inner_angle 1 = -π/2`, which is negative and not greater
than `π`: the claimed `angle < 0 → angle + 2π` correction is not applied
and the result does not lie in `[0, 2π)`. -/
theorem inner_angle_correction_counterexample :
    reflexTriangle.concave 1
    ∧ reflexTriangle.inner_angle 1 = -(Real.pi / 2)
    ∧ ¬ Real.pi < reflexTriangle.inner_angle 1
    ∧ ¬ 0 ≤ reflexTriangle.inner_angle 1 := by
  refine ⟨?_, reflex_inner_angle_one, ?_, ?_⟩
  · unfold Outline.concave Outline.convex
    rw [reflex_cos_sin_one]
    norm_num
  · rw [reflex_inner_angle_one]
    nlinarith [Real.pi_pos]
  · rw [reflex_inner_angle_one]
    nlinarith [Real.pi_pos]

/-- C2 (amended): `inner_angle i` returns the raw `atan2` value in
`(-π, π]` with no correction; at a vertex whose normalized sine is
negative (in particular a strictly concave vertex) it is negative rather
than greater than `π`. -/
theorem inner_angle_raw_range_concave_negative (o : Outline) (i : ℤ) :
    (-Real.pi < o.inner_angle i ∧ o.inner_angle i ≤ Real.pi)
    ∧ ((o.inner_angle_cos_sin i).2 < 0 → o.inner_angle i < 0) := by
  rw [Outline.inner_angle_def]
  constructor
  · exact Set.mem_Ioc.mp (Complex.arg_mem_Ioc _)
  · intro hs
    exact Complex.arg_neg_iff.mpr hs

/-- C2 witness: the amended statement instantiated on the reflex triangle
at vertex 1, whose sine component is `-1`. -/
theorem inner_angle_raw_range_concave_negative_witness :
    (reflexTriangle.inner_angle_cos_sin 1).2 < 0
    ∧ ((-Real.pi < reflexTriangle.inner_angle 1
          ∧ reflexTriangle.inner_angle 1 ≤ Real.pi)
        ∧ reflexTriangle.inner_angle 1 < 0) := by
  have hs : (reflexTriangle.inner_angle_cos_sin 1).2 < 0 := by
    rw [reflex_cos_sin_one]
    norm_num
  have h := inner_angle_raw_range_concave_negative reflexTriangle 1
  exact ⟨hs, h.1, h.2 hs⟩

/-! ### C10: degenerate neighbor vectors are classified as concave -/

/-- C10: at a vertex where either neighbor vector is zero (so the
floating-point normalized sine is not a positive number), `convex` is
false and `concave` is true: degenerate vertices are silently assigned to
the concave side. -/
theorem degenerate_vertex_classified_concave (o : Outline) (i : ℤ)
    (h : (o.to_neighbors i).1 = ⟨0, 0⟩ ∨ (o.to_neighbors i).2 = ⟨0, 0⟩) :
    ¬ o.convex i ∧ o.concave i := by
  have hs : (o.inner_angle_cos_sin i).2 = 0 := by
    rw [Outline.cos_sin_formula]
    rcases h with h | h <;> simp [h]
  unfold Outline.concave Outline.convex
  rw [hs]
  norm_num

/-- C10 witness: the outline `[(0,0), (0,0), (1,0)]` is degenerate at
vertex 1 (zero to-prev vector) and is classified concave there. -/
theorem degenerate_vertex_classified_concave_witness :
    ((degenerateOutline.to_neighbors 1).1 = ⟨0, 0⟩
      ∨ (degenerateOutline.to_neighbors 1).2 = ⟨0, 0⟩)
    ∧ (¬ degenerateOutline.convex 1 ∧ degenerateOutline.concave 1) :=
  ⟨Or.inl degenerate_to_prev,
   degenerate_vertex_classified_concave degenerateOutline 1
     (Or.inl degenerate_to_prev)⟩

end PolygonSpec
